import Mathlib

/-!
Verification of the isuumo web application (Go) search/caching core.

The Go source (`app/isuumo/webapp/go/main.go`) is shallowly embedded below:
* Go `int64` / `int` values are modelled as `Int`, Go `float64` coordinates as `Rat`
  (the code only ever compares and copies them, so exact rationals preserve the
  semantics for every representable input).
* A Go string that the code computes on (the comma-joined `features` column) is
  modelled as a `List Char`; strings that are only stored and returned stay `String`.
* The relational backing store is modelled as a `List` of rows; an SQL
  `ORDER BY` is modelled with `List.insertionSort` (the Go side uses
  `sort.Slice`, an unstable sort: any permutation sorted by the comparator is an
  admissible result, and the theorems below only use sortedness/permutation facts).
* Code that can fail at runtime (a `nil`-pointer dereference or an out-of-range
  index, both of which panic in Go) is modelled with `Option`: `none` is a panic.
-/

namespace Isuumo

/-- `const Limit = 20` -/
def Limit : Nat := 20

/-- `const NazotteLimit = 50` -/
def NazotteLimit : Nat := 50

/-- The `Chair` row (`type Chair struct`).  `features` is the comma-joined
feature string the code pattern-matches on, hence `List Char`. -/
structure Chair where
  id : Int
  name : String
  description : String
  thumbnail : String
  price : Int
  height : Int
  width : Int
  depth : Int
  color : String
  features : List Char
  kind : String
  popularity : Int
  stock : Int
  widthLevel : Int
  heightLevel : Int
  depthLevel : Int
  priceLevel : Int
deriving DecidableEq, Repr

/-- The `Estate` row (`type Estate struct`). -/
structure Estate where
  id : Int
  thumbnail : String
  name : String
  description : String
  latitude : Rat
  longitude : Rat
  address : String
  rent : Int
  doorHeight : Int
  doorWidth : Int
  features : List Char
  popularity : Int
  widthLevel : Int
  heightLevel : Int
  rentLevel : Int
deriving DecidableEq, Repr

/-- `type Coordinate struct { Latitude, Longitude float64 }` -/
structure Coordinate where
  latitude : Rat
  longitude : Rat
deriving DecidableEq, Repr

/-- `type BoundingBox struct { TopLeftCorner, BottomRightCorner Coordinate }` -/
structure BoundingBox where
  topLeftCorner : Coordinate
  bottomRightCorner : Coordinate
deriving DecidableEq, Repr

/-- `type EstateSearchResponse struct { Count int64; Estates []Estate }` -/
structure EstateSearchResponse where
  count : Int
  estates : List Estate
deriving DecidableEq, Repr

/-- The comparator passed to `sort.Slice` in `searchEstateNazotte`:
`if pop_i == pop_j then id_i < id_j else pop_i > pop_j`. -/
def estateLess (a b : Estate) : Bool :=
  if a.popularity == b.popularity then decide (a.id < b.id)
  else decide (a.popularity > b.popularity)

/-- `sort.Slice` sorts so that for adjacent elements `a` before `b` the
comparator never orders `b` strictly before `a`; the resulting order relation
is `¬ estateLess b a`. -/
def estatePopRank (a b : Estate) : Prop := estateLess b a = false

instance : DecidableRel estatePopRank := fun a b =>
  inferInstanceAs (Decidable (estateLess b a = false))

/-- The `ORDER BY popularity DESC, id ASC` order used by the search page
queries, as a relation on chairs. -/
def chairPopRank (a b : Chair) : Prop :=
  b.popularity < a.popularity ∨ (a.popularity = b.popularity ∧ a.id ≤ b.id)

instance : DecidableRel chairPopRank := fun a b =>
  inferInstanceAs (Decidable (b.popularity < a.popularity ∨ (a.popularity = b.popularity ∧ a.id ≤ b.id)))

/-- `ORDER BY price ASC, id ASC` (the chair `low_priced` query). -/
def chairPriceRank (a b : Chair) : Prop :=
  a.price < b.price ∨ (a.price = b.price ∧ a.id ≤ b.id)

instance : DecidableRel chairPriceRank := fun a b =>
  inferInstanceAs (Decidable (a.price < b.price ∨ (a.price = b.price ∧ a.id ≤ b.id)))

/-- `ORDER BY rent ASC, id ASC` (the estate `low_priced` query). -/
def estateRentRank (a b : Estate) : Prop :=
  a.rent < b.rent ∨ (a.rent = b.rent ∧ a.id ≤ b.id)

instance : DecidableRel estateRentRank := fun a b =>
  inferInstanceAs (Decidable (a.rent < b.rent ∨ (a.rent = b.rent ∧ a.id ≤ b.id)))

/-- Tail of `searchEstateNazotte` (main.go lines 1251-1266): sort the contained
estates in place with `sort.Slice`, truncate to `NazotteLimit`, and report the
length of the truncated slice as `Count`. -/
def nazotteRankTruncate (estatesInPolygon : List Estate) : EstateSearchResponse :=
  let sorted := estatesInPolygon.insertionSort estatePopRank
  let es := if NazotteLimit < sorted.length then sorted.take NazotteLimit else sorted
  { count := (es.length : Int), estates := es }

/-- `SELECT * FROM chair WHERE stock > 0 ORDER BY price ASC, id ASC LIMIT 20`
(the query issued by `getLowPricedChair` on a cache miss). -/
def lowPricedChairQuery (store : List Chair) : List Chair :=
  ((store.filter (fun ch => decide (0 < ch.stock))).insertionSort chairPriceRank).take Limit

/-- `getLowPricedChair` (main.go 807-829).  The process-wide cache variable
`lowPricedChair` is the explicit `state` argument (`none` = the Go `nil`
pointer).  The result is `(response, new cache state, store round trips)`. -/
def getLowPricedChairHandler (lowPricedChair : Option (List Chair))
    (store : List Chair) : List Chair × Option (List Chair) × Nat :=
  match lowPricedChair with
  | some resp => (resp, some resp, 0)
  | none =>
    let chairs := lowPricedChairQuery store
    (chairs, some chairs, 1)

/-- `SELECT * FROM estate ORDER BY rent ASC, id ASC LIMIT 20`. -/
def lowPricedEstateQuery (store : List Estate) : List Estate :=
  (store.insertionSort estateRentRank).take Limit

/-- `getLowPricedEstate` (main.go 1107-1123).  There is no cache on this path:
every call issues the query.  The result is `(response, store round trips)`. -/
def getLowPricedEstateHandler (store : List Estate) : List Estate × Nat :=
  (lowPricedEstateQuery store, 1)

/-- The cache hook at the end of `postChair` (main.go 609-617): it reads
`lowPricedChair.Chairs[len(lowPricedChair.Chairs)-1].Price` and drops the
snapshot when the inserted price is `<=` that entry.  The outer `Option` models
the two Go panics on this path: dereferencing the `nil` cache pointer, and
indexing position `-1` of an empty snapshot.  `some s` means the hook finishes
normally leaving the cache in state `s`. -/
def postChairCachePatch (lowPricedChair : Option (List Chair))
    (currentPrice : Int) : Option (Option (List Chair)) :=
  match lowPricedChair with
  | none => none
  | some chairs =>
    match chairs.getLast? with
    | none => none
    | some bottom =>
      if currentPrice ≤ bottom.price then some none else some (some chairs)

/-- Outcome of the `buyChair` transaction. -/
inductive BuyChairResult where
  | notFound
  | ok
deriving DecidableEq, Repr

/-- The `buyChair` transaction body (main.go 751-779):
`SELECT * FROM chair WHERE id = ? AND stock > 0 FOR UPDATE` — `ErrNoRows`
becomes NotFound with the transaction rolled back — then
`UPDATE chair SET stock = stock - 1 WHERE id = ?` and commit. -/
def buyChairTx (store : List Chair) (id : Int) : BuyChairResult × List Chair :=
  match store.find? (fun ch => ch.id == id && decide (0 < ch.stock)) with
  | none => (.notFound, store)
  | some _ =>
    (.ok, store.map fun ch =>
      if ch.id == id then { ch with stock := ch.stock - 1 } else ch)

/-- The cache patch at the end of `buyChair` (main.go 781-798): scan
`lowPricedChair.Chairs` for the bought id, decrement that entry's stock in
place, and drop the snapshot when the patched stock reaches zero.  As in
`postChairCachePatch`, the outer `none` is the Go panic raised by ranging over
`lowPricedChair.Chairs` when the cache pointer is `nil`. -/
def buyChairCachePatch (lowPricedChair : Option (List Chair))
    (id : Int) : Option (Option (List Chair)) :=
  match lowPricedChair with
  | none => none
  | some chairs =>
    match chairs.findIdx? (fun ch => ch.id == id) with
    | none => some (some chairs)
    | some target =>
      match chairs[target]? with
      | none => some (some chairs)
      | some ch =>
        let patched := chairs.set target { ch with stock := ch.stock - 1 }
        if ch.stock - 1 == 0 then some none else some (some patched)

/-- A chair whose unmodelled columns are zeroed, for concrete instances. -/
def mkChair (id price popularity stock : Int) : Chair :=
  { id := id, name := "", description := "", thumbnail := "", price := price,
    height := 0, width := 0, depth := 0, color := "", features := [], kind := "",
    popularity := popularity, stock := stock, widthLevel := 0, heightLevel := 0,
    depthLevel := 0, priceLevel := 0 }

/-- An estate whose unmodelled columns are zeroed, for concrete instances. -/
def mkEstate (id rent popularity : Int) (lat lon : Rat) : Estate :=
  { id := id, thumbnail := "", name := "", description := "", latitude := lat,
    longitude := lon, address := "", rent := rent, doorHeight := 0,
    doorWidth := 0, features := [], popularity := popularity, widthLevel := 0,
    heightLevel := 0, rentLevel := 0 }

/-- Go `strings.Split(s, ",")` on a character list: `""` yields `[""]`,
`"A,B"` yields `["A", "B"]`, a trailing comma yields a final `""`. -/
def splitOnComma : List Char → List (List Char)
  | [] => [[]]
  | c :: cs =>
    match splitOnComma cs with
    | [] => if c = ',' then [[], []] else [[c]]
    | w :: ws => if c = ',' then [] :: w :: ws else (c :: w) :: ws

/-- MySQL `s LIKE CONCAT` of percent signs around `f`: `f` occurs contiguously
in `s`.  (The requested tags contain no LIKE wildcard characters.) -/
def isSubstring (f : List Char) : List Char → Bool
  | [] => f.isEmpty
  | c :: cs => f.isPrefixOf (c :: cs) || isSubstring f cs

/-- The chair features filter built in `searchChairs` (main.go 676-681): the
features parameter is split on commas and every fragment `f` contributes one
`features LIKE` percent-`f`-percent condition; their conjunction. -/
def chairFeaturesCond (fs : List (List Char)) (features : List Char) : Bool :=
  fs.all (fun f => isSubstring f features)

/-- The tag-set semantics the spec describes, for comparison with the code:
the item's tag set (its features column split on commas, empty fragments
dropped) contains every requested tag. -/
def tagSupersetMatch (fs : List (List Char)) (features : List Char) : Bool :=
  fs.all (fun f => ((splitOnComma features).filter (fun w => !w.isEmpty)).contains f)

/-- The loop `for i, s := range cond.Feature.List { featureMap[s] = i }` from
`init` (main.go 269-273), folded into a direct lookup: a later occurrence of
the same name overwrites an earlier one, and a missing key reads the Go map's
zero value `0`. -/
def featureMapFind (cfg : List (List Char)) (f : List Char) (i acc : Nat) : Nat :=
  match cfg with
  | [] => acc
  | c :: cs => featureMapFind cs f (i + 1) (if c = f then i else acc)

/-- `estateFeatureMap[f]` (and identically `chairFeatureMap[f]`). -/
def featureMapLookup (cfg : List (List Char)) (f : List Char) : Nat :=
  featureMapFind cfg f 0 0

/-- The `estate_feature` rows created for one estate by `postEstate`
(main.go 969-976): split the features column on commas, skip empty fragments,
translate each name through the feature map. -/
def estateFeatureIds (cfg : List (List Char)) (e : Estate) : List Nat :=
  ((splitOnComma e.features).filter (fun w => !w.isEmpty)).map (featureMapLookup cfg)

/-- The requested feature ids built by `searchEstates` (main.go 1038-1045):
split the features parameter on commas, skip empty fragments, translate each
through the feature map. -/
def requestFeatureIds (cfg : List (List Char)) (features : List Char) : List Nat :=
  ((splitOnComma features).filter (fun w => !w.isEmpty)).map (featureMapLookup cfg)

/-- The grouped feature join of `searchEstates` (main.go 1035-1036):
`SELECT estate_id FROM estate_feature WHERE feature_id IN (reqIds)
GROUP BY estate_id HAVING COUNT(*) = length of reqIds`, evaluated for one
estate: the number of its feature rows whose id lies in `reqIds` equals the
number of requested ids. -/
def estateFeatureMatch (itemFeatureIds reqIds : List Nat) : Bool :=
  (itemFeatureIds.countP (fun i => decide (i ∈ reqIds))) == reqIds.length

/-- Observable outcome of a search handler.  `badRequest` (HTTP 400) is
returned before any backing-store access; `storeError` is a store query
failing, surfaced as HTTP 500; `ok` carries the number of completed store
round trips, the count-query result and the page. -/
inductive SearchOutcome (α : Type) where
  | badRequest
  | storeError
  | ok (storeAccesses : Nat) (count : Int) (items : List α)
deriving DecidableEq, Repr

/-- The chair rows matching the conjunction of the assembled filter conditions
(`stock > 0` is always appended, main.go 688), in the
`ORDER BY popularity DESC, id ASC` order. -/
def chairMatches (store : List Chair) (conds : List (Chair → Bool)) : List Chair :=
  (store.filter (fun ch => conds.all (fun p => p ch) && decide (0 < ch.stock))).insertionSort
    chairPopRank

/-- `searchChairs` (main.go 622-730), from the point where the discrete filter
conditions have been assembled (range-id resolution happens upstream of this
boundary and yields its own 400s).  `features` is the raw features parameter
(`none` when absent); each comma fragment contributes one LIKE condition,
conjoined here as `chairFeaturesCond`.  `page?` / `perPage?` are the results
of `strconv.Atoi` (`none` = parse failure, the only rejected shape).  The
count query runs first; MySQL rejects a negative LIMIT or OFFSET, so a
negative parsed value fails at the page query, after the count query. -/
def searchChairsHandler (store : List Chair) (conds : List (Chair → Bool))
    (features : Option (List Char)) (page? perPage? : Option Int) :
    SearchOutcome Chair :=
  let allConds :=
    match features with
    | none => conds
    | some s => conds ++ [fun ch => chairFeaturesCond (splitOnComma s) ch.features]
  if allConds.isEmpty then .badRequest
  else
    match page?, perPage? with
    | none, _ => .badRequest
    | _, none => .badRequest
    | some page, some perPage =>
      let ms := chairMatches store allConds
      if perPage < 0 ∨ page * perPage < 0 then .storeError
      else .ok 2 (ms.length : Int) ((ms.drop (page * perPage).toNat).take perPage.toNat)

/-- The estate rows matching the conjunction of the discrete conditions and the
optional feature filter, in the `ORDER BY popularity DESC, id ASC` order. -/
def estateMatches (store : List Estate) (conds : List (Estate → Bool))
    (featureIds : Option (List Nat)) (cfg : List (List Char)) : List Estate :=
  (store.filter (fun e => conds.all (fun p => p e) &&
    (match featureIds with
     | none => true
     | some ids => estateFeatureMatch (estateFeatureIds cfg e) ids))).insertionSort
    estatePopRank

/-- `searchEstates` (main.go 997-1105), from the same boundary as
`searchChairsHandler`.  A features parameter is translated to
`requestFeatureIds` and filtered through the grouped join; when the translated
id list is empty the generated SQL contains an empty `IN ()` list, which the
store rejects (the count query fails, HTTP 500). -/
def searchEstatesHandler (store : List Estate) (conds : List (Estate → Bool))
    (features : Option (List Char)) (cfg : List (List Char))
    (page? perPage? : Option Int) : SearchOutcome Estate :=
  let featureIds := features.map (requestFeatureIds cfg)
  if conds.isEmpty && features.isNone then .badRequest
  else
    match page?, perPage? with
    | none, _ => .badRequest
    | _, none => .badRequest
    | some page, some perPage =>
      match featureIds with
      | some [] => .storeError
      | _ =>
        let ms := estateMatches store conds featureIds cfg
        if perPage < 0 ∨ page * perPage < 0 then .storeError
        else .ok 2 (ms.length : Int) ((ms.drop (page * perPage).toNat).take perPage.toNat)

/-- One iteration of the min/max fold in `getBoundingBox` (main.go 1316-1330):
the four comparisons update the four corner components independently. -/
def bbStep (b : BoundingBox) (c : Coordinate) : BoundingBox :=
  { topLeftCorner := {
      latitude := if b.topLeftCorner.latitude > c.latitude then c.latitude
        else b.topLeftCorner.latitude
      longitude := if b.topLeftCorner.longitude > c.longitude then c.longitude
        else b.topLeftCorner.longitude }
    bottomRightCorner := {
      latitude := if b.bottomRightCorner.latitude < c.latitude then c.latitude
        else b.bottomRightCorner.latitude
      longitude := if b.bottomRightCorner.longitude < c.longitude then c.longitude
        else b.bottomRightCorner.longitude } }

/-- `Coordinates.getBoundingBox` (main.go 1306-1332): both corners start at
`coordinates[0]` (indexing an empty slice panics in Go, modelled as `none`;
the caller rejects an empty polygon before calling this) and the min/max
update is folded over all coordinates. -/
def getBoundingBox (coordinates : List Coordinate) : Option BoundingBox :=
  match coordinates with
  | [] => none
  | c0 :: _ =>
    some (coordinates.foldl bbStep
      { topLeftCorner := { latitude := c0.latitude, longitude := c0.longitude }
        bottomRightCorner := { latitude := c0.latitude, longitude := c0.longitude } })

/-- The candidate fetch of `searchEstateNazotte` (main.go 1179-1180):
`latitude <= BR.lat AND latitude >= TL.lat AND longitude <= BR.lon AND
longitude >= TL.lon` — all four bounds inclusive. -/
def inBoundingBox (b : BoundingBox) (e : Estate) : Bool :=
  decide (e.latitude ≤ b.bottomRightCorner.latitude) &&
  decide (b.topLeftCorner.latitude ≤ e.latitude) &&
  decide (e.longitude ≤ b.bottomRightCorner.longitude) &&
  decide (b.topLeftCorner.longitude ≤ e.longitude)

/-- 25 pairwise distinct chairs, all in stock, for concrete instances. -/
def chairStore25 : List Chair := (List.range 25).map (fun i => mkChair i 100 0 1)

/-- 25 pairwise distinct estates, for concrete instances. -/
def estateStore25 : List Estate := (List.range 25).map (fun i => mkEstate i 100 0 0 0)

/-- The spec's example polygon `[(0,0), (0,10), (10,10), (10,0)]`. -/
def polyExample : List Coordinate :=
  [{ latitude := 0, longitude := 0 }, { latitude := 0, longitude := 10 },
   { latitude := 10, longitude := 10 }, { latitude := 10, longitude := 0 }]

end Isuumo

namespace Isuumo

theorem estatePopRank_iff (a b : Estate) :
    estatePopRank a b ↔
      b.popularity < a.popularity ∨ (a.popularity = b.popularity ∧ a.id ≤ b.id) := by
  unfold estatePopRank estateLess
  by_cases h : b.popularity = a.popularity <;>
    simp [h, beq_iff_eq] <;> omega

instance : IsTotal Estate estatePopRank := by
  constructor
  intro a b
  rw [estatePopRank_iff, estatePopRank_iff]
  omega

instance : IsTrans Estate estatePopRank := by
  constructor
  intro a b c hab hbc
  rw [estatePopRank_iff] at *
  omega

/-- The truncation in `searchEstateNazotte` always equals `take 50` of the
sorted list (when the list is short, taking 50 keeps it whole). -/
theorem nazotte_estates_eq (ms : List Estate) :
    (nazotteRankTruncate ms).estates = (ms.insertionSort estatePopRank).take 50 := by
  unfold nazotteRankTruncate NazotteLimit
  dsimp only
  split <;> rename_i h
  · rfl
  · exact (List.take_of_length_le (by omega)).symm

theorem nazotte_count_eq (ms : List Estate) :
    (nazotteRankTruncate ms).count = ((nazotteRankTruncate ms).estates.length : Int) :=
  rfl

/-- C1: For every polygon search, the returned items are sorted by popularity
descending with ties broken by identity ascending, the list is truncated to at
most 50 items, and the reported count equals the number of items actually
returned after truncation, i.e. `min (number of matches) 50`; in particular 60
contained matches yield exactly 50 results with count 50. -/
theorem nazotte_rank_truncate_spec (ms : List Estate) :
    (nazotteRankTruncate ms).estates.Sorted
        (fun a b => b.popularity < a.popularity ∨
          (a.popularity = b.popularity ∧ a.id ≤ b.id)) ∧
    (nazotteRankTruncate ms).estates.length ≤ 50 ∧
    (nazotteRankTruncate ms).count = ((nazotteRankTruncate ms).estates.length : Int) ∧
    (nazotteRankTruncate ms).count = (min ms.length 50 : Nat) ∧
    ∀ e ∈ (nazotteRankTruncate ms).estates, e ∈ ms := by
  have hperm : List.Perm (ms.insertionSort estatePopRank) ms := List.perm_insertionSort _ _
  have hlen : (ms.insertionSort estatePopRank).length = ms.length := hperm.length_eq
  have hsorted : (ms.insertionSort estatePopRank).Sorted estatePopRank :=
    List.sorted_insertionSort _ _
  have hest := nazotte_estates_eq ms
  refine ⟨?_, ?_, nazotte_count_eq ms, ?_, ?_⟩
  · rw [hest]
    exact (hsorted.sublist (List.take_sublist _ _)).imp
      (fun h => (estatePopRank_iff _ _).mp h)
  · rw [hest]
    simp [List.length_take]
  · rw [nazotte_count_eq ms, hest]
    simp [List.length_take, hlen]
    omega
  · intro e he
    rw [hest] at he
    exact hperm.mem_iff.mp (List.take_subset _ _ he)

/-- C2 counterexample: the property catalog's cheapest-N listing is not
cached — a second `get()` still performs one backing-store access, not zero
(shown here on the concrete empty store; `getLowPricedEstate` is stateless, so
this is the access count of every call, second calls included). -/
theorem lowPricedEstate_second_get_hits_store :
    ¬ ((getLowPricedEstateHandler []).2 = 0) := by
  simp [getLowPricedEstateHandler]

/-- C2 amended: only the furniture catalog caches the cheapest-N snapshot:
after a `getLowPricedChair` returns, a second call with no intervening mutation
performs zero backing-store accesses and returns the identical snapshot, while
`getLowPricedEstate` performs one backing-store access on every call. -/
theorem lowPriceCache_amended (st : Option (List Chair)) (cstore : List Chair)
    (estore : List Estate) :
    ((getLowPricedChairHandler (getLowPricedChairHandler st cstore).2.1 cstore).1 =
        (getLowPricedChairHandler st cstore).1) ∧
    ((getLowPricedChairHandler (getLowPricedChairHandler st cstore).2.1 cstore).2.1 =
        (getLowPricedChairHandler st cstore).2.1) ∧
    ((getLowPricedChairHandler (getLowPricedChairHandler st cstore).2.1 cstore).2.2 = 0) ∧
    (getLowPricedEstateHandler estore).2 = 1 := by
  cases st <;> simp [getLowPricedChairHandler, getLowPricedEstateHandler]

/-- C3 (code bug): the `postChair` cache hook is not defined in every cache
state.  With no published snapshot (`lowPricedChair = nil`, the state at
process start and after any invalidation) it dereferences a nil pointer and
panics, and on an empty published snapshot it indexes position `-1` and
panics — in both cases instead of invalidating.  Moreover on a non-empty
snapshot smaller than N (here one entry, N = 20) with an inserted price above
the snapshot's most expensive entry, it keeps the snapshot even though the
claim requires invalidation. -/
theorem postChair_hook_divergence :
    postChairCachePatch none 1000 = none ∧
    postChairCachePatch (some []) 1000 = none ∧
    postChairCachePatch (some [mkChair 1 500 0 1]) 501 =
      some (some [mkChair 1 500 0 1]) := by
  refine ⟨rfl, rfl, by decide⟩

/-- C5 (code bug): the `buyChair` cache patch panics (nil-pointer dereference
while ranging over `lowPricedChair.Chairs`) whenever no snapshot is published,
instead of leaving the cache unchanged as claimed.  On a published snapshot the
claimed behaviour does hold, evaluated here: a present id gets exactly its own
stock decremented, a patched stock of zero invalidates, and an absent id leaves
the snapshot unchanged. -/
theorem buyChair_cache_patch_divergence :
    buyChairCachePatch none 1 = none ∧
    buyChairCachePatch (some [mkChair 1 100 0 2, mkChair 2 200 0 5]) 1 =
      some (some [mkChair 1 100 0 1, mkChair 2 200 0 5]) ∧
    buyChairCachePatch (some [mkChair 1 100 0 1, mkChair 2 200 0 5]) 1 = some none ∧
    buyChairCachePatch (some [mkChair 2 100 0 1]) 9 = some (some [mkChair 2 100 0 1]) := by
  refine ⟨rfl, by decide, by decide, by decide⟩

/-- C4: `buyChair` returns NotFound exactly when the referenced chair is absent
or out of stock, leaves the store untouched in that case, and on success
decrements exactly the bought chair's stock by one, never below zero. -/
theorem buyChair_spec (store : List Chair) (id : Int)
    (hnd : (store.map Chair.id).Nodup)
    (hstock : ∀ ch ∈ store, 0 ≤ ch.stock) :
    ((buyChairTx store id).1 = .notFound ↔ ∀ ch ∈ store, ch.id = id → ch.stock = 0) ∧
    ((buyChairTx store id).1 = .notFound → (buyChairTx store id).2 = store) ∧
    ((buyChairTx store id).1 = .ok →
      (∀ ch ∈ store, ch.id ≠ id → ch ∈ (buyChairTx store id).2) ∧
      (∀ ch ∈ store, ch.id = id →
        { ch with stock := ch.stock - 1 } ∈ (buyChairTx store id).2 ∧
          0 ≤ ch.stock - 1) ∧
      (buyChairTx store id).2.length = store.length ∧
      (∀ ch ∈ (buyChairTx store id).2, 0 ≤ ch.stock)) := by
  cases hfind : store.find? (fun ch => ch.id == id && decide (0 < ch.stock)) with
  | none =>
    have hall := List.find?_eq_none.mp hfind
    refine ⟨?_, ?_, ?_⟩
    · simp only [buyChairTx, hfind]
      constructor
      · intro _ ch hch hid
        have := hall ch hch
        simp [hid] at this
        have := hstock ch hch
        omega
      · intro _
        trivial
    · intro _
      simp [buyChairTx, hfind]
    · intro habs
      simp [buyChairTx, hfind] at habs
  | some c =>
    have hc : c ∈ store := List.mem_of_find?_eq_some hfind
    have hcp := List.find?_some hfind
    have hcid : c.id = id := by
      simp at hcp
      exact hcp.1
    have hcstock : 0 < c.stock := by
      simp at hcp
      exact hcp.2
    have huniq : ∀ ch ∈ store, ch.id = id → ch = c := by
      intro ch hch hid
      exact List.inj_on_of_nodup_map hnd hch hc (by rw [hid, hcid])
    refine ⟨?_, ?_, ?_⟩
    · simp only [buyChairTx, hfind]
      constructor
      · intro habs
        simp at habs
      · intro hall
        have := hall c hc hcid
        omega
    · intro habs
      simp [buyChairTx, hfind] at habs
    · intro _
      refine ⟨?_, ?_, ?_, ?_⟩
      · intro ch hch hne
        simp only [buyChairTx, hfind]
        refine List.mem_map.mpr ⟨ch, hch, ?_⟩
        simp [hne]
      · intro ch hch hid
        have hcheq : ch = c := huniq ch hch hid
        constructor
        · simp only [buyChairTx, hfind]
          refine List.mem_map.mpr ⟨ch, hch, ?_⟩
          simp [hid]
        · subst hcheq
          omega
      · simp [buyChairTx, hfind]
      · intro ch' hch'
        simp only [buyChairTx, hfind] at hch'
        rcases List.mem_map.mp hch' with ⟨ch, hch, heq⟩
        by_cases hid : ch.id = id
        · have hcheq : ch = c := huniq ch hch hid
          subst hcheq
          simp [hid] at heq
          subst heq
          simp
          omega
        · simp [hid] at heq
          subst heq
          exact hstock ch hch

/-- C4 witness: a store with chair 1 in stock 2; buying id 1 succeeds, and all
conjuncts of `buyChair_spec` instantiate there. -/
theorem buyChair_spec_witness :
    ((buyChairTx [mkChair 1 100 5 2] 1).1 = .notFound ↔
        ∀ ch ∈ [mkChair 1 100 5 2], ch.id = 1 → ch.stock = 0) ∧
    ((buyChairTx [mkChair 1 100 5 2] 1).1 = .notFound →
        (buyChairTx [mkChair 1 100 5 2] 1).2 = [mkChair 1 100 5 2]) ∧
    ((buyChairTx [mkChair 1 100 5 2] 1).1 = .ok →
      (∀ ch ∈ [mkChair 1 100 5 2], ch.id ≠ 1 →
          ch ∈ (buyChairTx [mkChair 1 100 5 2] 1).2) ∧
      (∀ ch ∈ [mkChair 1 100 5 2], ch.id = 1 →
        { ch with stock := ch.stock - 1 } ∈ (buyChairTx [mkChair 1 100 5 2] 1).2 ∧
          0 ≤ ch.stock - 1) ∧
      (buyChairTx [mkChair 1 100 5 2] 1).2.length = [mkChair 1 100 5 2].length ∧
      (∀ ch ∈ (buyChairTx [mkChair 1 100 5 2] 1).2, 0 ≤ ch.stock)) :=
  buyChair_spec [mkChair 1 100 5 2] 1 (by decide) (by decide)

/-- C6 counterexample: the furniture search's tag filter is substring matching,
not tag-set superset.  A chair whose features column is the single tag `"AB"`
matches the requested tag set containing the single tag `"A"` (the generated
condition is `features LIKE` percent-A-percent), although its tag set `{"AB"}`
is not a superset of `{"A"}`. -/
theorem chair_tag_filter_not_superset :
    chairFeaturesCond [[ 'A' ]] [ 'A', 'B' ] = true ∧
    tagSupersetMatch [[ 'A' ]] [ 'A', 'B' ] = false := by
  decide

/-- C6 amended: the property search's feature filter is a relational
intersection: with distinct item feature ids and distinct requested ids, the
grouped-count join matches exactly the items whose feature-id set is a
superset of the requested ids.  The furniture search instead requires every
requested tag to occur as a substring of the features column. -/
theorem estate_tag_filter_superset (itemIds reqIds : List Nat)
    (h1 : itemIds.Nodup) (h2 : reqIds.Nodup) :
    (estateFeatureMatch itemIds reqIds = true ↔ ∀ i ∈ reqIds, i ∈ itemIds) ∧
    (∀ fs features, chairFeaturesCond fs features = true ↔
      ∀ f ∈ fs, isSubstring f features = true) := by
  constructor
  · unfold estateFeatureMatch
    rw [List.countP_eq_length_filter]
    have hFnd : (itemIds.filter (fun i => decide (i ∈ reqIds))).Nodup := h1.filter _
    have hFsub : (itemIds.filter (fun i => decide (i ∈ reqIds))) ⊆ reqIds := by
      intro x hx
      simpa using List.of_mem_filter hx
    have hsub := List.subperm_of_subset hFnd hFsub
    constructor
    · intro hlen
      have hlen2 : (itemIds.filter (fun i => decide (i ∈ reqIds))).length =
          reqIds.length := by
        simpa using hlen
      have hperm := hsub.perm_of_length_le (le_of_eq hlen2.symm)
      intro i hi
      exact List.mem_of_mem_filter (hperm.mem_iff.mpr hi)
    · intro hsup
      have hrsub : reqIds ⊆ (itemIds.filter (fun i => decide (i ∈ reqIds))) := by
        intro i hi
        exact List.mem_filter.mpr ⟨hsup i hi, by simpa using hi⟩
      have h1len := hsub.length_le
      have h2len := (List.subperm_of_subset h2 hrsub).length_le
      simp only [beq_iff_eq]
      omega
  · intro fs features
    simp [chairFeaturesCond, List.all_eq_true]

/-- C6 witness: an item with feature ids 0, 1, 2 against the requested ids 0, 1;
both hypotheses of `estate_tag_filter_superset` hold there. -/
theorem estate_tag_filter_superset_witness :
    (estateFeatureMatch [0, 1, 2] [0, 1] = true ↔
      ∀ i ∈ ([0, 1] : List Nat), i ∈ ([0, 1, 2] : List Nat)) ∧
    (∀ fs features, chairFeaturesCond fs features = true ↔
      ∀ f ∈ fs, isSubstring f features = true) :=
  estate_tag_filter_superset [0, 1, 2] [0, 1] (by decide) (by decide)

theorem searchChairsHandler_ok (store : List Chair) (conds : List (Chair → Bool))
    (h : conds ≠ []) (page perPage : Int) (hpp : 0 ≤ perPage) (hpg : 0 ≤ page * perPage) :
    searchChairsHandler store conds none (some page) (some perPage) =
      .ok 2 ((chairMatches store conds).length : Int)
        (((chairMatches store conds).drop (page * perPage).toNat).take perPage.toNat) := by
  unfold searchChairsHandler
  have h1 : conds.isEmpty = false := by
    cases conds
    · exact absurd rfl h
    · rfl
  dsimp only
  rw [h1]
  rw [if_neg (by simp), if_neg (by omega)]

theorem searchEstatesHandler_ok (store : List Estate) (conds : List (Estate → Bool))
    (cfg : List (List Char)) (h : conds ≠ []) (page perPage : Int)
    (hpp : 0 ≤ perPage) (hpg : 0 ≤ page * perPage) :
    searchEstatesHandler store conds none cfg (some page) (some perPage) =
      .ok 2 ((estateMatches store conds none cfg).length : Int)
        (((estateMatches store conds none cfg).drop (page * perPage).toNat).take
          perPage.toNat) := by
  unfold searchEstatesHandler
  have h1 : conds.isEmpty = false := by
    cases conds
    · exact absurd rfl h
    · rfl
  dsimp only [Option.map]
  rw [h1]
  rw [if_neg (by simp), if_neg (by omega)]

/-- C7: for every filter set whose ordered match set has 25 items, pages
`(page 0, perPage 20)` and `(page 1, perPage 20)` of both search handlers are
the `LIMIT 20 OFFSET page * 20` slices of that ordered set: disjoint,
order-consistent, reconstructing all 25 by concatenation, and both responses
report count 25. -/
theorem search_pagination_spec (cstore : List Chair) (cconds : List (Chair → Bool))
    (estore : List Estate) (econds : List (Estate → Bool)) (cfg : List (List Char))
    (hcc : cconds ≠ []) (hec : econds ≠ []) (hcn : cstore.Nodup) (hen : estore.Nodup)
    (hc25 : (chairMatches cstore cconds).length = 25)
    (he25 : (estateMatches estore econds none cfg).length = 25) :
    (searchChairsHandler cstore cconds none (some 0) (some 20) =
      .ok 2 25 ((chairMatches cstore cconds).take 20) ∧
    searchChairsHandler cstore cconds none (some 1) (some 20) =
      .ok 2 25 (((chairMatches cstore cconds).drop 20).take 20) ∧
    ((chairMatches cstore cconds).take 20) ++
        (((chairMatches cstore cconds).drop 20).take 20) = chairMatches cstore cconds ∧
    ((chairMatches cstore cconds).take 20).Disjoint
        (((chairMatches cstore cconds).drop 20).take 20)) ∧
    (searchEstatesHandler estore econds none cfg (some 0) (some 20) =
      .ok 2 25 ((estateMatches estore econds none cfg).take 20) ∧
    searchEstatesHandler estore econds none cfg (some 1) (some 20) =
      .ok 2 25 (((estateMatches estore econds none cfg).drop 20).take 20) ∧
    ((estateMatches estore econds none cfg).take 20) ++
        (((estateMatches estore econds none cfg).drop 20).take 20) =
      estateMatches estore econds none cfg ∧
    ((estateMatches estore econds none cfg).take 20).Disjoint
        (((estateMatches estore econds none cfg).drop 20).take 20)) := by
  have hcnd : (chairMatches cstore cconds).Nodup :=
    (List.perm_insertionSort _ _).nodup_iff.mpr (hcn.filter _)
  have hend : (estateMatches estore econds none cfg).Nodup :=
    (List.perm_insertionSort _ _).nodup_iff.mpr (hen.filter _)
  constructor
  · refine ⟨?_, ?_, ?_, ?_⟩
    · rw [searchChairsHandler_ok cstore cconds hcc 0 20 (by omega) (by omega), hc25]
      rfl
    · rw [searchChairsHandler_ok cstore cconds hcc 1 20 (by omega) (by omega), hc25]
      rfl
    · rw [← List.take_add]
      exact List.take_of_length_le (by omega)
    · intro a ha hb
      exact List.disjoint_take_drop hcnd (le_refl 20) ha (List.take_subset _ _ hb)
  · refine ⟨?_, ?_, ?_, ?_⟩
    · rw [searchEstatesHandler_ok estore econds cfg hec 0 20 (by omega) (by omega), he25]
      rfl
    · rw [searchEstatesHandler_ok estore econds cfg hec 1 20 (by omega) (by omega), he25]
      rfl
    · rw [← List.take_add]
      exact List.take_of_length_le (by omega)
    · intro a ha hb
      exact List.disjoint_take_drop hend (le_refl 20) ha (List.take_subset _ _ hb)

/-- C7 witness: concrete stores with 25 matching items each, under the trivial
always-true filter condition; all hypotheses of `search_pagination_spec` hold
there. -/
theorem search_pagination_spec_witness :
    (searchChairsHandler chairStore25 [fun _ => true] none (some 0) (some 20) =
      .ok 2 25 ((chairMatches chairStore25 [fun _ => true]).take 20) ∧
    searchChairsHandler chairStore25 [fun _ => true] none (some 1) (some 20) =
      .ok 2 25 (((chairMatches chairStore25 [fun _ => true]).drop 20).take 20) ∧
    ((chairMatches chairStore25 [fun _ => true]).take 20) ++
        (((chairMatches chairStore25 [fun _ => true]).drop 20).take 20) =
      chairMatches chairStore25 [fun _ => true] ∧
    ((chairMatches chairStore25 [fun _ => true]).take 20).Disjoint
        (((chairMatches chairStore25 [fun _ => true]).drop 20).take 20)) ∧
    (searchEstatesHandler estateStore25 [fun _ => true] none [] (some 0) (some 20) =
      .ok 2 25 ((estateMatches estateStore25 [fun _ => true] none []).take 20) ∧
    searchEstatesHandler estateStore25 [fun _ => true] none [] (some 1) (some 20) =
      .ok 2 25 (((estateMatches estateStore25 [fun _ => true] none []).drop 20).take 20) ∧
    ((estateMatches estateStore25 [fun _ => true] none []).take 20) ++
        (((estateMatches estateStore25 [fun _ => true] none []).drop 20).take 20) =
      estateMatches estateStore25 [fun _ => true] none [] ∧
    ((estateMatches estateStore25 [fun _ => true] none []).take 20).Disjoint
        (((estateMatches estateStore25 [fun _ => true] none []).drop 20).take 20)) :=
  search_pagination_spec chairStore25 [fun _ => true] estateStore25 [fun _ => true] []
    (List.cons_ne_nil _ _) (List.cons_ne_nil _ _) (by decide) (by decide)
    (by decide) (by decide)

/-- C8 counterexample: `perPage = 0` parses successfully and is not rejected:
the furniture search runs both backing-store queries and returns HTTP 200 with
an empty page, rather than failing with BadInput before any store access. -/
theorem chair_search_accepts_nonpositive_perpage :
    searchChairsHandler [] [fun _ => true] none (some 0) (some 0) =
      .ok 2 0 [] ∧
    searchChairsHandler [] [fun _ => true] none (some 0) (some 0) ≠
      .badRequest := by
  constructor
  · rfl
  · intro h
    simpa [searchChairsHandler, chairMatches] using h

/-- C8 amended: the searches reject with BadInput exactly the requests with an
empty condition set (and, for the property search, no features parameter) or
an unparsable page / perPage parameter.  A parsed non-positive pageSize is not
rejected: the backing store is reached. -/
theorem search_badrequest_characterization (cstore : List Chair)
    (cconds : List (Chair → Bool)) (cfeat : Option (List Char))
    (estore : List Estate) (econds : List (Estate → Bool)) (efeat : Option (List Char))
    (cfg : List (List Char)) (cp cpp ep epp : Option Int) :
    (searchChairsHandler cstore cconds cfeat cp cpp = .badRequest ↔
      ((cconds = [] ∧ cfeat = none) ∨ cp = none ∨ cpp = none)) ∧
    (searchEstatesHandler estore econds efeat cfg ep epp = .badRequest ↔
      ((econds = [] ∧ efeat = none) ∨ ep = none ∨ epp = none)) := by
  constructor
  · unfold searchChairsHandler
    cases cfeat <;> cases cconds <;> cases cp <;> cases cpp <;>
      simp_all <;> (try split) <;> simp_all
  · unfold searchEstatesHandler
    cases efeat <;> cases econds <;> cases ep <;> cases epp <;>
      simp_all <;> (try split) <;> simp_all <;> (try split) <;> simp_all

theorem ifGT_eq_min (a x : Rat) : (if a > x then x else a) = min a x := by
  rcases le_or_lt a x with h | h
  · rw [if_neg (not_lt.mpr h), min_eq_left h]
  · rw [if_pos h, min_eq_right h.le]

theorem ifLT_eq_max (a x : Rat) : (if a < x then x else a) = max a x := by
  rcases le_or_lt x a with h | h
  · rw [if_neg (not_lt.mpr h), max_eq_left h]
  · rw [if_pos h, max_eq_right h.le]

theorem foldl_min_spec (f : Coordinate → Rat) (l : List Coordinate) (a : Rat) :
    (l.foldl (fun acc c => min acc (f c)) a ≤ a) ∧
    (∀ c ∈ l, l.foldl (fun acc c => min acc (f c)) a ≤ f c) ∧
    (l.foldl (fun acc c => min acc (f c)) a = a ∨
      ∃ c ∈ l, l.foldl (fun acc c => min acc (f c)) a = f c) := by
  induction l generalizing a with
  | nil => simp
  | cons d ds ih =>
    simp only [List.foldl_cons]
    obtain ⟨ih1, ih2, ih3⟩ := ih (min a (f d))
    refine ⟨le_trans ih1 (min_le_left _ _), ?_, ?_⟩
    · intro c hc
      rcases List.mem_cons.mp hc with rfl | hc
      · exact le_trans ih1 (min_le_right _ _)
      · exact ih2 c hc
    · rcases ih3 with h | ⟨c, hc, hcev⟩
      · rcases le_total a (f d) with hle | hle
        · left
          rw [h, min_eq_left hle]
        · right
          exact ⟨d, List.mem_cons_self _ _, by rw [h, min_eq_right hle]⟩
      · right
        exact ⟨c, List.mem_cons_of_mem _ hc, hcev⟩

theorem foldl_max_spec (f : Coordinate → Rat) (l : List Coordinate) (a : Rat) :
    (a ≤ l.foldl (fun acc c => max acc (f c)) a) ∧
    (∀ c ∈ l, f c ≤ l.foldl (fun acc c => max acc (f c)) a) ∧
    (l.foldl (fun acc c => max acc (f c)) a = a ∨
      ∃ c ∈ l, l.foldl (fun acc c => max acc (f c)) a = f c) := by
  induction l generalizing a with
  | nil => simp
  | cons d ds ih =>
    simp only [List.foldl_cons]
    obtain ⟨ih1, ih2, ih3⟩ := ih (max a (f d))
    refine ⟨le_trans (le_max_left _ _) ih1, ?_, ?_⟩
    · intro c hc
      rcases List.mem_cons.mp hc with rfl | hc
      · exact le_trans (le_max_right _ _) ih1
      · exact ih2 c hc
    · rcases ih3 with h | ⟨c, hc, hcev⟩
      · rcases le_total a (f d) with hle | hle
        · right
          exact ⟨d, List.mem_cons_self _ _, by rw [h, max_eq_right hle]⟩
        · left
          rw [h, max_eq_left hle]
      · right
        exact ⟨c, List.mem_cons_of_mem _ hc, hcev⟩

theorem foldl_bbStep_tlLat (l : List Coordinate) (b : BoundingBox) :
    (l.foldl bbStep b).topLeftCorner.latitude =
      l.foldl (fun acc c => min acc c.latitude) b.topLeftCorner.latitude := by
  induction l generalizing b with
  | nil => rfl
  | cons c cs ih =>
    have hstep : (bbStep b c).topLeftCorner.latitude =
        min b.topLeftCorner.latitude c.latitude := ifGT_eq_min _ _
    rw [List.foldl_cons, List.foldl_cons, ih, hstep]

theorem foldl_bbStep_tlLon (l : List Coordinate) (b : BoundingBox) :
    (l.foldl bbStep b).topLeftCorner.longitude =
      l.foldl (fun acc c => min acc c.longitude) b.topLeftCorner.longitude := by
  induction l generalizing b with
  | nil => rfl
  | cons c cs ih =>
    have hstep : (bbStep b c).topLeftCorner.longitude =
        min b.topLeftCorner.longitude c.longitude := ifGT_eq_min _ _
    rw [List.foldl_cons, List.foldl_cons, ih, hstep]

theorem foldl_bbStep_brLat (l : List Coordinate) (b : BoundingBox) :
    (l.foldl bbStep b).bottomRightCorner.latitude =
      l.foldl (fun acc c => max acc c.latitude) b.bottomRightCorner.latitude := by
  induction l generalizing b with
  | nil => rfl
  | cons c cs ih =>
    have hstep : (bbStep b c).bottomRightCorner.latitude =
        max b.bottomRightCorner.latitude c.latitude := ifLT_eq_max _ _
    rw [List.foldl_cons, List.foldl_cons, ih, hstep]

theorem foldl_bbStep_brLon (l : List Coordinate) (b : BoundingBox) :
    (l.foldl bbStep b).bottomRightCorner.longitude =
      l.foldl (fun acc c => max acc c.longitude) b.bottomRightCorner.longitude := by
  induction l generalizing b with
  | nil => rfl
  | cons c cs ih =>
    have hstep : (bbStep b c).bottomRightCorner.longitude =
        max b.bottomRightCorner.longitude c.longitude := ifLT_eq_max _ _
    rw [List.foldl_cons, List.foldl_cons, ih, hstep]

/-- C9: for every non-empty coordinate sequence, the bounding box's
TopLeftCorner is the coordinate-wise minimum and its BottomRightCorner the
coordinate-wise maximum over all vertices (each corner component bounds every
vertex and is attained by one), so every vertex lies inside the closed
axis-aligned rectangle, and the candidate fetch predicate holds exactly on the
closed rectangle (inclusive bounds). -/
theorem getBoundingBox_spec (cs : List Coordinate) (h : cs ≠ []) :
    ∃ b, getBoundingBox cs = some b ∧
      (∀ c ∈ cs,
        b.topLeftCorner.latitude ≤ c.latitude ∧
        c.latitude ≤ b.bottomRightCorner.latitude ∧
        b.topLeftCorner.longitude ≤ c.longitude ∧
        c.longitude ≤ b.bottomRightCorner.longitude) ∧
      (∃ c ∈ cs, b.topLeftCorner.latitude = c.latitude) ∧
      (∃ c ∈ cs, b.topLeftCorner.longitude = c.longitude) ∧
      (∃ c ∈ cs, b.bottomRightCorner.latitude = c.latitude) ∧
      (∃ c ∈ cs, b.bottomRightCorner.longitude = c.longitude) ∧
      (∀ e : Estate, inBoundingBox b e = true ↔
        (b.topLeftCorner.latitude ≤ e.latitude ∧
         e.latitude ≤ b.bottomRightCorner.latitude ∧
         b.topLeftCorner.longitude ≤ e.longitude ∧
         e.longitude ≤ b.bottomRightCorner.longitude)) := by
  cases cs with
  | nil => exact absurd rfl h
  | cons c0 rest =>
    refine ⟨_, rfl, ?_, ?_, ?_, ?_, ?_, ?_⟩
    · intro c hc
      refine ⟨?_, ?_, ?_, ?_⟩
      · rw [foldl_bbStep_tlLat]
        exact (foldl_min_spec Coordinate.latitude (c0 :: rest) c0.latitude).2.1 c hc
      · rw [foldl_bbStep_brLat]
        exact (foldl_max_spec Coordinate.latitude (c0 :: rest) c0.latitude).2.1 c hc
      · rw [foldl_bbStep_tlLon]
        exact (foldl_min_spec Coordinate.longitude (c0 :: rest) c0.longitude).2.1 c hc
      · rw [foldl_bbStep_brLon]
        exact (foldl_max_spec Coordinate.longitude (c0 :: rest) c0.longitude).2.1 c hc
    · rw [foldl_bbStep_tlLat]
      rcases (foldl_min_spec Coordinate.latitude (c0 :: rest) c0.latitude).2.2 with
        he | ⟨c, hc, he⟩
      · exact ⟨c0, List.mem_cons_self _ _, he⟩
      · exact ⟨c, hc, he⟩
    · rw [foldl_bbStep_tlLon]
      rcases (foldl_min_spec Coordinate.longitude (c0 :: rest) c0.longitude).2.2 with
        he | ⟨c, hc, he⟩
      · exact ⟨c0, List.mem_cons_self _ _, he⟩
      · exact ⟨c, hc, he⟩
    · rw [foldl_bbStep_brLat]
      rcases (foldl_max_spec Coordinate.latitude (c0 :: rest) c0.latitude).2.2 with
        he | ⟨c, hc, he⟩
      · exact ⟨c0, List.mem_cons_self _ _, he⟩
      · exact ⟨c, hc, he⟩
    · rw [foldl_bbStep_brLon]
      rcases (foldl_max_spec Coordinate.longitude (c0 :: rest) c0.longitude).2.2 with
        he | ⟨c, hc, he⟩
      · exact ⟨c0, List.mem_cons_self _ _, he⟩
      · exact ⟨c, hc, he⟩
    · intro e
      simp only [inBoundingBox, Bool.and_eq_true, decide_eq_true_eq]
      tauto

/-- C9 witness: the spec's example polygon `[(0,0), (0,10), (10,10), (10,0)]`
is non-empty, so `getBoundingBox_spec` instantiates on it. -/
theorem getBoundingBox_spec_witness :
    ∃ b, getBoundingBox polyExample = some b ∧
      (∀ c ∈ polyExample,
        b.topLeftCorner.latitude ≤ c.latitude ∧
        c.latitude ≤ b.bottomRightCorner.latitude ∧
        b.topLeftCorner.longitude ≤ c.longitude ∧
        c.longitude ≤ b.bottomRightCorner.longitude) ∧
      (∃ c ∈ polyExample, b.topLeftCorner.latitude = c.latitude) ∧
      (∃ c ∈ polyExample, b.topLeftCorner.longitude = c.longitude) ∧
      (∃ c ∈ polyExample, b.bottomRightCorner.latitude = c.latitude) ∧
      (∃ c ∈ polyExample, b.bottomRightCorner.longitude = c.longitude) ∧
      (∀ e : Estate, inBoundingBox b e = true ↔
        (b.topLeftCorner.latitude ≤ e.latitude ∧
         e.latitude ≤ b.bottomRightCorner.latitude ∧
         b.topLeftCorner.longitude ≤ e.longitude ∧
         e.longitude ≤ b.bottomRightCorner.longitude)) :=
  getBoundingBox_spec polyExample (by simp [polyExample])

theorem featureMapFind_of_not_mem (cfg : List (List Char)) (f : List Char)
    (hf : f ∉ cfg) : ∀ i acc, featureMapFind cfg f i acc = acc := by
  induction cfg with
  | nil =>
    intro i acc
    rfl
  | cons c cs ih =>
    intro i acc
    have hne : ¬ (c = f) := fun he => hf (he ▸ List.mem_cons_self _ _)
    simp only [featureMapFind, if_neg hne]
    exact ih (fun hm => hf (List.mem_cons_of_mem _ hm)) _ _

/-- C10: a features filter naming a tag outside the configured feature list is
translated to feature id 0 (the Go map's zero value), which is exactly the id
the first configured feature translates to, so the filter behaves as if the
first configured feature had been requested. -/
theorem unknown_feature_maps_to_zero (cfg : List (List Char)) (f c0 : List Char)
    (rest : List (List Char)) (hcfg : cfg = c0 :: rest) (hnd : cfg.Nodup)
    (hf : f ∉ cfg) :
    featureMapLookup cfg f = 0 ∧
    featureMapLookup cfg c0 = 0 ∧
    ∀ ids, estateFeatureMatch ids [featureMapLookup cfg f] =
      estateFeatureMatch ids [featureMapLookup cfg c0] := by
  subst hcfg
  have h0 : featureMapLookup (c0 :: rest) f = 0 :=
    featureMapFind_of_not_mem _ _ hf 0 0
  have hc0nr : c0 ∉ rest := (List.nodup_cons.mp hnd).1
  have h1 : featureMapLookup (c0 :: rest) c0 = 0 := by
    unfold featureMapLookup
    simp only [featureMapFind, if_pos rfl]
    exact featureMapFind_of_not_mem _ _ hc0nr _ _
  refine ⟨h0, h1, ?_⟩
  intro ids
  rw [h0, h1]

/-- C10 witness: the configured list `["a", "b"]` with the unknown tag `"z"`;
all hypotheses of `unknown_feature_maps_to_zero` hold there. -/
theorem unknown_feature_maps_to_zero_witness :
    featureMapLookup [[ 'a' ], [ 'b' ]] [ 'z' ] = 0 ∧
    featureMapLookup [[ 'a' ], [ 'b' ]] [ 'a' ] = 0 ∧
    ∀ ids, estateFeatureMatch ids [featureMapLookup [[ 'a' ], [ 'b' ]] [ 'z' ]] =
      estateFeatureMatch ids [featureMapLookup [[ 'a' ], [ 'b' ]] [ 'a' ]] :=
  unknown_feature_maps_to_zero [[ 'a' ], [ 'b' ]] [ 'z' ] [ 'a' ] [[ 'b' ]]
    rfl (by decide) (by decide)

end Isuumo
